import Mathlib

/-!
Verification of the Exercise-Tracker service (src/index.js): a shallow
embedding of its three data-bearing route handlers over an explicit store
state, together with theorems settling the specification claims.

Modelling conventions:
* The Mongo store is a pair of lists (users, exercises) plus a fresh-id
  counter; `_id` values are naturals drawn from the counter.
* JavaScript `Date` values are modelled as integers with the usual order;
  the environment `Env` supplies the runtime's date parser (`new Date(s)`
  plus the `isNaN(getTime())` validity check, as `parseDate`), the current
  date (`new Date()`, as `now`) and `Date.prototype.toDateString`
  (as `toDateString`). These are JS-runtime primitives, not code of the
  repository, so they stay abstract parameters.
* Mongoose `ObjectId` casting of a path `_id` is modelled by `castId`:
  a string is a well-formed id iff it reads as a numeral; a failed cast is
  the `CastError` the handlers catch.
* Body and query fields are `Option String` (`none` = absent), and JS
  truthiness of such a field (`!x`) is `truthyOpt`.
* `parseInt` is modelled with its JS semantics: skip leading whitespace,
  optional sign, then the longest digit prefix; `none` is `NaN`.
-/

namespace ExerciseTracker

/-- A stored User document: `_id` and `username` (src/index.js lines 14-17). -/
structure UserRec where
  uid : Nat
  username : String
  deriving DecidableEq, Repr

/-- A stored Exercise document: `_id`, `userId` reference, `description`,
`duration`, `date` (src/index.js lines 19-25). -/
structure ExerciseRec where
  eid : Nat
  userId : Nat
  description : String
  duration : Int
  date : Int
  deriving DecidableEq, Repr

/-- The document store: the two collections in insertion order, and the
counter from which fresh `_id`s are drawn. -/
structure DB where
  users : List UserRec
  exercises : List ExerciseRec
  nextId : Nat
  deriving DecidableEq, Repr

/-- Well-formed store: every stored id is below the fresh-id counter, so a
newly drawn id differs from every existing one. -/
def DB.wf (db : DB) : Prop :=
  (∀ u ∈ db.users, u.uid < db.nextId) ∧ (∀ e ∈ db.exercises, e.eid < db.nextId)

instance (db : DB) : Decidable db.wf := by
  unfold DB.wf; infer_instance

/-- The JS runtime facilities the handlers use for dates: `now` is
`new Date()`, `parseDate` is `new Date(s)` combined with the
`isNaN(d.getTime())` validity check, `toDateString` is
`Date.prototype.toDateString`. -/
structure Env where
  now : Int
  parseDate : String → Option Int
  toDateString : Int → String

/-- An error response: HTTP status plus the `error` message of the JSON body. -/
structure HttpError where
  status : Nat
  error : String
  deriving DecidableEq, Repr

/-- JS truthiness of an optional string field: `undefined` and `""` are falsy. -/
def truthyOpt : Option String → Bool
  | none => false
  | some s => s != ""

/-- JS whitespace accepted by `parseInt` before the number. -/
def isJsSpace (c : Char) : Bool :=
  c == ' ' || c == '\t' || c == '\n' || c == '\r'

/-- Numeric value of a decimal digit character. -/
def digitVal (c : Char) : Nat := c.toNat - 48

/-- JavaScript `parseInt(s)` (radix 10): skip leading whitespace, read an
optional sign and then the longest prefix of decimal digits; `none` models
`NaN` (no digits found). -/
def parseIntJS (s : String) : Option Int :=
  let cs := s.data.dropWhile isJsSpace
  let signed : Bool × List Char :=
    match cs with
    | c :: rest => if c = '-' then (true, rest) else if c = '+' then (false, rest) else (false, cs)
    | [] => (false, cs)
  let ds := signed.2.takeWhile Char.isDigit
  if ds.isEmpty then none
  else
    let n : Nat := ds.foldl (fun acc c => acc * 10 + digitVal c) 0
    some (if signed.1 then -(n : Int) else (n : Int))

/-- Mongoose `ObjectId` cast of a path `_id` string: succeeds iff the string
is a well-formed identifier (modelled as a non-empty string of decimal
digits, read as a numeral); failure is the `CastError` caught by the
handlers. -/
def castId (s : String) : Option Nat :=
  if s.data.isEmpty || !(s.data.all Char.isDigit) then none
  else some (s.data.foldl (fun acc c => acc * 10 + digitVal c) 0)

/-- Response body of POST /api/users: `{username, _id}`. -/
structure UserResp where
  username : String
  id : Nat
  deriving DecidableEq, Repr

/-- Outcome of `newUser.save()` under the unique index on `username`:
either the saved record and the updated store, or a driver error code
(11000 = duplicate key). -/
inductive SaveUserResult where
  | ok (u : UserRec) (db : DB)
  | err (code : Nat)
  deriving DecidableEq, Repr

/-- Mongo insert of a new user under the unique index on `username`
(src/index.js lines 14-16, 53-54): duplicate key yields error code 11000. -/
def saveUser (db : DB) (uname : String) : SaveUserResult :=
  if db.users.any (fun r => r.username == uname) then .err 11000
  else .ok ⟨db.nextId, uname⟩ ⟨db.users ++ [⟨db.nextId, uname⟩], db.exercises, db.nextId + 1⟩

/-- POST /api/users handler (src/index.js lines 38-65), with the store state
observed by `findOne` (`dbFind`) and by `save` (`dbSave`) passed separately
so the concurrent-insert race the catch block handles is expressible; the
sequential run is the diagonal `createUser`. -/
def createUserWith (dbFind dbSave : DB) (username? : Option String) :
    Except HttpError UserResp × DB :=
  match username? with
  | none => (.error ⟨400, "Username is required"⟩, dbSave)
  | some uname =>
    if uname = "" then (.error ⟨400, "Username is required"⟩, dbSave)
    else
      match dbFind.users.find? (fun r => r.username == uname) with
      | some found => (.ok ⟨found.username, found.uid⟩, dbSave)
      | none =>
        match saveUser dbSave uname with
        | .ok saved db2 => (.ok ⟨saved.username, saved.uid⟩, db2)
        | .err code =>
          if code = 11000 then (.error ⟨400, "Username already taken"⟩, dbSave)
          else (.error ⟨500, "Could not create user"⟩, dbSave)

/-- POST /api/users in its sequential run: `findOne` and `save` see the same
store. -/
def createUser (db : DB) (username? : Option String) : Except HttpError UserResp × DB :=
  createUserWith db db username?

/-- Response body of POST /api/users/:_id/exercises (src/index.js
lines 123-129): `{username, description, duration, date, _id}`. -/
structure ExerciseResp where
  username : String
  description : String
  duration : Int
  date : String
  id : Nat
  deriving DecidableEq, Repr

/-- The `!description || !duration` guard of the exercise handler
(src/index.js lines 85-87). -/
def requireBody (d? dur? : Option String) : Except HttpError (String × String) :=
  match d?, dur? with
  | some d, some dur =>
    if d = "" ∨ dur = "" then .error ⟨400, "Description and duration are required"⟩
    else .ok (d, dur)
  | _, _ => .error ⟨400, "Description and duration are required"⟩

/-- Date resolution of the exercise handler (src/index.js lines 96-104):
falsy `date` (absent or empty) means the current date; otherwise the string
must parse. -/
def resolveDate (env : Env) (dt? : Option String) : Except HttpError Int :=
  match dt? with
  | none => .ok env.now
  | some ds =>
    if ds = "" then .ok env.now
    else
      match env.parseDate ds with
      | some d => .ok d
      | none => .error ⟨400, "Invalid date format"⟩

/-- POST /api/users/:_id/exercises handler (src/index.js lines 80-139):
validate body, parse duration with `parseInt`, resolve the date, then
`findById` (a failed id cast is the caught `CastError` → 400; a missing
user → 404), then save the exercise and answer with the user's `_id`. -/
def addExercise (env : Env) (db : DB) (userId : String)
    (d? dur? dt? : Option String) : Except HttpError ExerciseResp × DB :=
  match requireBody d? dur? with
  | .error e => (.error e, db)
  | .ok (desc, dur) =>
    match parseIntJS dur with
    | none => (.error ⟨400, "Duration must be a number"⟩, db)
    | some durationNum =>
      match resolveDate env dt? with
      | .error e => (.error e, db)
      | .ok exDate =>
        match castId userId with
        | none => (.error ⟨400, "Invalid user ID format"⟩, db)
        | some uid =>
          match db.users.find? (fun u => u.uid == uid) with
          | none => (.error ⟨404, "User not found"⟩, db)
          | some user =>
            let ex : ExerciseRec := ⟨db.nextId, user.uid, desc, durationNum, exDate⟩
            (.ok ⟨user.username, ex.description, ex.duration, env.toDateString ex.date, user.uid⟩,
             ⟨db.users, db.exercises ++ [ex], db.nextId + 1⟩)

/-- One entry of the returned log (src/index.js lines 187-191):
`{description, duration, date}` with the date already formatted. -/
structure LogEntry where
  description : String
  duration : Int
  date : String
  deriving DecidableEq, Repr

/-- Response body of GET /api/users/:_id/logs (src/index.js lines 194-199). -/
structure LogResp where
  username : String
  count : Nat
  id : Nat
  log : List LogEntry
  deriving DecidableEq, Repr

/-- One bound of the log date filter (src/index.js lines 157-172): a falsy
query value contributes no bound; a truthy one must parse or the request
fails with the given message. -/
def parseBound (env : Env) (q? : Option String) (msg : String) :
    Except HttpError (Option Int) :=
  match q? with
  | none => .ok none
  | some s =>
    if s = "" then .ok none
    else
      match env.parseDate s with
      | some d => .ok (some d)
      | none => .error ⟨400, msg⟩

/-- The `$gte`/`$lte` date filter as a predicate (src/index.js lines
156-175); both bounds are inclusive, and an absent side of the filter
constrains nothing. -/
def inBounds (lo hi : Option Int) (d : Int) : Bool :=
  (match lo with | none => true | some f => decide (f ≤ d)) &&
  (match hi with | none => true | some t => decide (d ≤ t))

/-- The `limit` handling (src/index.js lines 179-182): `parseInt` the raw
query value; only a parse that yields a positive number produces a cap. -/
def limitCap (limit? : Option String) : Option Nat :=
  match limit? with
  | none => none
  | some s =>
    match parseIntJS s with
    | none => none
    | some n => if 0 < n then some n.toNat else none

/-- `query.limit(n)` as a list operation; no cap leaves the query alone. -/
def applyCap (cap : Option Nat) (xs : List ExerciseRec) : List ExerciseRec :=
  match cap with
  | none => xs
  | some n => xs.take n

/-- The composed exercise query of the logs handler (src/index.js lines
153-191): `Exercise.find({userId})`, then the date `where` clause, then
`limit`, then the mapping to `{description, duration, date}` entries. -/
def matchedLog (env : Env) (db : DB) (uid : Nat) (lo hi : Option Int)
    (limitQ : Option String) : List LogEntry :=
  (applyCap (limitCap limitQ)
      ((db.exercises.filter (fun e => e.userId == uid)).filter
        (fun e => inBounds lo hi e.date))).map
    (fun e => ⟨e.description, e.duration, env.toDateString e.date⟩)

/-- GET /api/users/:_id/logs handler (src/index.js lines 142-209):
`findById` first (cast failure → 400, missing user → 404), then the `from`
and `to` bounds are validated in that order, then the user's exercises are
filtered, capped, and mapped to log entries; `count` is the length of the
returned log. -/
def getLogs (env : Env) (db : DB) (userId : String)
    (fromQ toQ limitQ : Option String) : Except HttpError LogResp :=
  match castId userId with
  | none => .error ⟨400, "Invalid user ID format"⟩
  | some uid =>
    match db.users.find? (fun u => u.uid == uid) with
    | none => .error ⟨404, "User not found"⟩
    | some user =>
      match parseBound env fromQ "Invalid \x27from\x27 date format" with
      | .error e => .error e
      | .ok lo =>
        match parseBound env toQ "Invalid \x27to\x27 date format" with
        | .error e => .error e
        | .ok hi =>
          .ok ⟨user.username, (matchedLog env db uid lo hi limitQ).length, user.uid,
               matchedLog env db uid lo hi limitQ⟩

/-- The log list of a logs response, empty on error (used to state
round-trip facts without an existential). -/
def logsOf : Except HttpError LogResp → List LogEntry
  | .ok r => r.log
  | .error _ => []

/-- Whether a logs request succeeded. -/
def isOkResp : Except HttpError LogResp → Bool
  | .ok _ => true
  | .error _ => false

/-! ### Concrete fixtures for witnesses and counterexamples -/

/-- Decimal digit character for a value below ten. -/
def digitChar (n : Nat) : Char := Char.ofNat (48 + n)

/-- Decimal digits of a natural, most significant first, with explicit fuel
so that it reduces by iota (the fuel always suffices when it exceeds n). -/
def natToStrAux : Nat → Nat → List Char
  | 0, _ => []
  | fuel + 1, n =>
    if n < 10 then [digitChar n]
    else natToStrAux fuel (n / 10) ++ [digitChar (n % 10)]

/-- A simple decimal rendering of an integer (used as a concrete
`toDateString` in witnesses). -/
def intToStr (i : Int) : String :=
  match i with
  | .ofNat n => String.mk (natToStrAux (n + 1) n)
  | .negSucc m => String.mk ('-' :: natToStrAux (m + 2) (m + 1))

/-- A concrete JS runtime for witnesses: dates are read with `parseIntJS`
and printed in decimal; the current date is 100. -/
def envX : Env := ⟨100, parseIntJS, intToStr⟩

/-- A concrete store: one user (id 1) owning two exercises dated 5 and 6. -/
def db3 : DB := ⟨[⟨1, "alice"⟩], [⟨2, 1, "run", 3, 5⟩, ⟨3, 1, "swim", 4, 6⟩], 4⟩

/-- The empty store. -/
def dbEmpty : DB := ⟨[], [], 0⟩

/-- The store `db3` after adding exercise "jog" for user 1. -/
def dbAfter : DB :=
  ⟨[⟨1, "alice"⟩],
   [⟨2, 1, "run", 3, 5⟩, ⟨3, 1, "swim", 4, 6⟩, ⟨4, 1, "jog", 45, 100⟩], 5⟩

/-- The creation response for the "jog" exercise on `db3`. -/
def respJog : ExerciseResp := ⟨"alice", "jog", 45, "100", 1⟩

/-- The logs response for user 1 of `db3` with bounds 0..10 and limit 1. -/
def logsR : LogResp := ⟨"alice", 1, 1, [⟨"run", 3, "5"⟩]⟩

/-- The logs response for user 1 of `db3` with bounds 0..10 and no limit. -/
def logsFull : LogResp := ⟨"alice", 2, 1, [⟨"run", 3, "5"⟩, ⟨"swim", 4, "6"⟩]⟩

instance {ε α : Type} [DecidableEq ε] [DecidableEq α] : DecidableEq (Except ε α) :=
  fun x y =>
    match x, y with
    | .ok a, .ok b =>
      if h : a = b then isTrue (by rw [h]) else isFalse (fun hh => h (Except.ok.inj hh))
    | .error a, .error b =>
      if h : a = b then isTrue (by rw [h]) else isFalse (fun hh => h (Except.error.inj hh))
    | .ok _, .error _ => isFalse (fun hh => Except.noConfusion hh)
    | .error _, .ok _ => isFalse (fun hh => Except.noConfusion hh)

end ExerciseTracker

namespace ExerciseTracker

/-! ### Helper lemmas -/

lemma applyCap_subset (cap : Option Nat) (xs : List ExerciseRec) :
    applyCap cap xs ⊆ xs := by
  cases cap with
  | none => exact fun a ha => ha
  | some n => exact List.take_subset n xs

lemma requireBody_falsy (d? dur? : Option String)
    (h : truthyOpt d? = false ∨ truthyOpt dur? = false) :
    requireBody d? dur? = .error ⟨400, "Description and duration are required"⟩ := by
  cases d? with
  | none => rfl
  | some d =>
    cases dur? with
    | none => rfl
    | some dur =>
      simp only [truthyOpt, bne_eq_false_iff_eq] at h
      unfold requireBody
      rcases h with h | h <;> simp [h]

lemma requireBody_ok (d dur : String) (hd : d ≠ "") (hdur : dur ≠ "") :
    requireBody (some d) (some dur) = .ok (d, dur) := by
  unfold requireBody
  simp [hd, hdur]

lemma requireBody_ok_inv (d? dur? : Option String) (desc dur : String)
    (h : requireBody d? dur? = .ok (desc, dur)) :
    d? = some desc ∧ dur? = some dur ∧ desc ≠ "" ∧ dur ≠ "" := by
  cases d? with
  | none => simp [requireBody] at h
  | some d =>
    cases dur? with
    | none => simp [requireBody] at h
    | some du =>
      replace h :
          (if d = "" ∨ du = ""
            then (Except.error ⟨400, "Description and duration are required"⟩ :
                   Except HttpError (String × String))
            else Except.ok (d, du)) = Except.ok (desc, dur) := h
      by_cases hc : d = "" ∨ du = ""
      · rw [if_pos hc] at h
        exact absurd h (by simp)
      · rw [if_neg hc] at h
        push_neg at hc
        simp only [Except.ok.injEq, Prod.mk.injEq] at h
        exact ⟨by rw [h.1], by rw [h.2], h.1 ▸ hc.1, h.2 ▸ hc.2⟩

lemma addExercise_bodyFalsy (env : Env) (db : DB) (userId : String)
    (d? dur? dt? : Option String)
    (h : truthyOpt d? = false ∨ truthyOpt dur? = false) :
    addExercise env db userId d? dur? dt? =
      (.error ⟨400, "Description and duration are required"⟩, db) := by
  unfold addExercise
  rw [requireBody_falsy d? dur? h]

lemma addExercise_durNaN (env : Env) (db : DB) (userId : String)
    (desc dur : String) (dt? : Option String)
    (hd : desc ≠ "") (hdur : dur ≠ "") (h : parseIntJS dur = none) :
    addExercise env db userId (some desc) (some dur) dt? =
      (.error ⟨400, "Duration must be a number"⟩, db) := by
  simp [addExercise, requireBody_ok desc dur hd hdur, h]

lemma addExercise_badDate (env : Env) (db : DB) (userId : String)
    (desc dur ds : String) (durN : Int)
    (hd : desc ≠ "") (hdur : dur ≠ "") (hn : parseIntJS dur = some durN)
    (hds : ds ≠ "") (hpd : env.parseDate ds = none) :
    addExercise env db userId (some desc) (some dur) (some ds) =
      (.error ⟨400, "Invalid date format"⟩, db) := by
  simp [addExercise, requireBody_ok desc dur hd hdur, hn, resolveDate, hds, hpd]

lemma addExercise_badCast (env : Env) (db : DB) (userId : String)
    (desc dur : String) (dt? : Option String) (durN exDate : Int)
    (hd : desc ≠ "") (hdur : dur ≠ "") (hn : parseIntJS dur = some durN)
    (hdt : resolveDate env dt? = .ok exDate) (hcast : castId userId = none) :
    addExercise env db userId (some desc) (some dur) dt? =
      (.error ⟨400, "Invalid user ID format"⟩, db) := by
  simp [addExercise, requireBody_ok desc dur hd hdur, hn, hdt, hcast]

lemma addExercise_notFound (env : Env) (db : DB) (userId : String)
    (desc dur : String) (dt? : Option String) (durN exDate : Int) (uid : Nat)
    (hd : desc ≠ "") (hdur : dur ≠ "") (hn : parseIntJS dur = some durN)
    (hdt : resolveDate env dt? = .ok exDate) (hcast : castId userId = some uid)
    (hfind : db.users.find? (fun u => u.uid == uid) = none) :
    addExercise env db userId (some desc) (some dur) dt? =
      (.error ⟨404, "User not found"⟩, db) := by
  simp [addExercise, requireBody_ok desc dur hd hdur, hn, hdt, hcast, hfind]

lemma addExercise_ok_eq (env : Env) (db : DB) (userId : String)
    (desc dur : String) (dt? : Option String) (durN exDate : Int)
    (uid : Nat) (user : UserRec)
    (hd : desc ≠ "") (hdur : dur ≠ "") (hn : parseIntJS dur = some durN)
    (hdt : resolveDate env dt? = .ok exDate) (hcast : castId userId = some uid)
    (hfind : db.users.find? (fun u => u.uid == uid) = some user) :
    addExercise env db userId (some desc) (some dur) dt? =
      (.ok ⟨user.username, desc, durN, env.toDateString exDate, user.uid⟩,
       ⟨db.users, db.exercises ++ [⟨db.nextId, user.uid, desc, durN, exDate⟩],
        db.nextId + 1⟩) := by
  simp [addExercise, requireBody_ok desc dur hd hdur, hn, hdt, hcast, hfind]

end ExerciseTracker

namespace ExerciseTracker

lemma addExercise_dateErr (env : Env) (db : DB) (userId : String)
    (desc dur : String) (dt? : Option String) (durN : Int) (e : HttpError)
    (hd : desc ≠ "") (hdur : dur ≠ "") (hn : parseIntJS dur = some durN)
    (hdt : resolveDate env dt? = .error e) :
    addExercise env db userId (some desc) (some dur) dt? = (.error e, db) := by
  simp [addExercise, requireBody_ok desc dur hd hdur, hn, hdt]

lemma addExercise_ok_inv (env : Env) (db : DB) (userId : String)
    (d? dur? dt? : Option String) (resp : ExerciseResp) (db2 : DB)
    (h : addExercise env db userId d? dur? dt? = (.ok resp, db2)) :
    ∃ desc dur durN exDate uid user,
      d? = some desc ∧ dur? = some dur ∧ desc ≠ "" ∧ dur ≠ "" ∧
      parseIntJS dur = some durN ∧ resolveDate env dt? = .ok exDate ∧
      castId userId = some uid ∧
      db.users.find? (fun u => u.uid == uid) = some user ∧
      resp = ⟨user.username, desc, durN, env.toDateString exDate, user.uid⟩ ∧
      db2 = ⟨db.users, db.exercises ++ [⟨db.nextId, user.uid, desc, durN, exDate⟩],
             db.nextId + 1⟩ := by
  cases hrb : requireBody d? dur? with
  | error e0 =>
    have hA : addExercise env db userId d? dur? dt? = (.error e0, db) := by
      unfold addExercise
      rw [hrb]
    rw [hA] at h
    simp at h
  | ok p =>
    obtain ⟨desc, dur⟩ := p
    obtain ⟨hd?, hdur?, hdne, hdurne⟩ := requireBody_ok_inv d? dur? desc dur hrb
    subst hd?
    subst hdur?
    cases hn : parseIntJS dur with
    | none =>
      rw [addExercise_durNaN env db userId desc dur dt? hdne hdurne hn] at h
      simp at h
    | some durN =>
      cases hdt : resolveDate env dt? with
      | error e0 =>
        rw [addExercise_dateErr env db userId desc dur dt? durN e0 hdne hdurne hn hdt] at h
        simp at h
      | ok exDate =>
        cases hcast : castId userId with
        | none =>
          rw [addExercise_badCast env db userId desc dur dt? durN exDate
                hdne hdurne hn hdt hcast] at h
          simp at h
        | some uid =>
          cases hfind : db.users.find? (fun u => u.uid == uid) with
          | none =>
            rw [addExercise_notFound env db userId desc dur dt? durN exDate uid
                  hdne hdurne hn hdt hcast hfind] at h
            simp at h
          | some user =>
            rw [addExercise_ok_eq env db userId desc dur dt? durN exDate uid user
                  hdne hdurne hn hdt hcast hfind] at h
            simp only [Prod.mk.injEq, Except.ok.injEq] at h
            refine ⟨desc, dur, durN, exDate, uid, user, rfl, rfl, hdne, hdurne,
                    ?_, ?_, ?_, ?_, h.1.symm, h.2.symm⟩
            · exact hn
            · rfl
            · rfl
            · exact hfind

lemma addExercise_val_indep (env : Env) (userId : String)
    (d? dur? dt? : Option String) (dbA dbB : DB) (e : HttpError)
    (h : (addExercise env dbA userId d? dur? dt?).1 = .error e)
    (h4 : e.status = 400) :
    (addExercise env dbB userId d? dur? dt?).1 = .error e := by
  cases hrb : requireBody d? dur? with
  | error e0 =>
    have hA : addExercise env dbA userId d? dur? dt? = (.error e0, dbA) := by
      unfold addExercise
      rw [hrb]
    have hB : addExercise env dbB userId d? dur? dt? = (.error e0, dbB) := by
      unfold addExercise
      rw [hrb]
    rw [hA] at h
    rw [hB]
    exact h
  | ok p =>
    obtain ⟨desc, dur⟩ := p
    obtain ⟨hd?, hdur?, hdne, hdurne⟩ := requireBody_ok_inv d? dur? desc dur hrb
    subst hd?
    subst hdur?
    cases hn : parseIntJS dur with
    | none =>
      rw [addExercise_durNaN env dbA userId desc dur dt? hdne hdurne hn] at h
      rw [addExercise_durNaN env dbB userId desc dur dt? hdne hdurne hn]
      exact h
    | some durN =>
      cases hdt : resolveDate env dt? with
      | error e0 =>
        rw [addExercise_dateErr env dbA userId desc dur dt? durN e0 hdne hdurne hn hdt] at h
        rw [addExercise_dateErr env dbB userId desc dur dt? durN e0 hdne hdurne hn hdt]
        exact h
      | ok exDate =>
        cases hcast : castId userId with
        | none =>
          rw [addExercise_badCast env dbA userId desc dur dt? durN exDate
                hdne hdurne hn hdt hcast] at h
          rw [addExercise_badCast env dbB userId desc dur dt? durN exDate
                hdne hdurne hn hdt hcast]
          exact h
        | some uid =>
          cases hfind : dbA.users.find? (fun u => u.uid == uid) with
          | none =>
            rw [addExercise_notFound env dbA userId desc dur dt? durN exDate uid
                  hdne hdurne hn hdt hcast hfind] at h
            have he : e = ⟨404, "User not found"⟩ := by
              simpa using h.symm
            subst he
            simp at h4
          | some user =>
            rw [addExercise_ok_eq env dbA userId desc dur dt? durN exDate uid user
                  hdne hdurne hn hdt hcast hfind] at h
            simp at h

end ExerciseTracker

namespace ExerciseTracker

lemma getLogs_castFail (env : Env) (db : DB) (userId : String)
    (fromQ toQ limitQ : Option String) (h : castId userId = none) :
    getLogs env db userId fromQ toQ limitQ = .error ⟨400, "Invalid user ID format"⟩ := by
  simp [getLogs, h]

lemma getLogs_notFound (env : Env) (db : DB) (userId : String) (uid : Nat)
    (fromQ toQ limitQ : Option String)
    (hcast : castId userId = some uid)
    (hfind : db.users.find? (fun u => u.uid == uid) = none) :
    getLogs env db userId fromQ toQ limitQ = .error ⟨404, "User not found"⟩ := by
  simp [getLogs, hcast, hfind]

lemma getLogs_fromErr (env : Env) (db : DB) (userId : String) (uid : Nat)
    (user : UserRec) (fromQ toQ limitQ : Option String) (e : HttpError)
    (hcast : castId userId = some uid)
    (hfind : db.users.find? (fun u => u.uid == uid) = some user)
    (hlo : parseBound env fromQ "Invalid \x27from\x27 date format" = .error e) :
    getLogs env db userId fromQ toQ limitQ = .error e := by
  simp [getLogs, hcast, hfind, hlo]

lemma getLogs_toErr (env : Env) (db : DB) (userId : String) (uid : Nat)
    (user : UserRec) (fromQ toQ limitQ : Option String) (lo : Option Int) (e : HttpError)
    (hcast : castId userId = some uid)
    (hfind : db.users.find? (fun u => u.uid == uid) = some user)
    (hlo : parseBound env fromQ "Invalid \x27from\x27 date format" = .ok lo)
    (hhi : parseBound env toQ "Invalid \x27to\x27 date format" = .error e) :
    getLogs env db userId fromQ toQ limitQ = .error e := by
  simp [getLogs, hcast, hfind, hlo, hhi]

lemma getLogs_ok_eq (env : Env) (db : DB) (userId : String) (uid : Nat)
    (user : UserRec) (fromQ toQ limitQ : Option String) (lo hi : Option Int)
    (hcast : castId userId = some uid)
    (hfind : db.users.find? (fun u => u.uid == uid) = some user)
    (hlo : parseBound env fromQ "Invalid \x27from\x27 date format" = .ok lo)
    (hhi : parseBound env toQ "Invalid \x27to\x27 date format" = .ok hi) :
    getLogs env db userId fromQ toQ limitQ =
      .ok ⟨user.username, (matchedLog env db uid lo hi limitQ).length, user.uid,
           matchedLog env db uid lo hi limitQ⟩ := by
  simp [getLogs, hcast, hfind, hlo, hhi]

lemma getLogs_ok_inv (env : Env) (db : DB) (userId : String)
    (fromQ toQ limitQ : Option String) (r : LogResp)
    (h : getLogs env db userId fromQ toQ limitQ = .ok r) :
    ∃ uid user lo hi,
      castId userId = some uid ∧
      db.users.find? (fun u => u.uid == uid) = some user ∧
      parseBound env fromQ "Invalid \x27from\x27 date format" = .ok lo ∧
      parseBound env toQ "Invalid \x27to\x27 date format" = .ok hi ∧
      r = ⟨user.username, (matchedLog env db uid lo hi limitQ).length, user.uid,
           matchedLog env db uid lo hi limitQ⟩ := by
  cases hcast : castId userId with
  | none => rw [getLogs_castFail env db userId fromQ toQ limitQ hcast] at h; simp at h
  | some uid =>
    cases hfind : db.users.find? (fun u => u.uid == uid) with
    | none => rw [getLogs_notFound env db userId uid fromQ toQ limitQ hcast hfind] at h; simp at h
    | some user =>
      cases hlo : parseBound env fromQ "Invalid \x27from\x27 date format" with
      | error e =>
        rw [getLogs_fromErr env db userId uid user fromQ toQ limitQ e hcast hfind hlo] at h
        simp at h
      | ok lo =>
        cases hhi : parseBound env toQ "Invalid \x27to\x27 date format" with
        | error e =>
          rw [getLogs_toErr env db userId uid user fromQ toQ limitQ lo e hcast hfind hlo hhi] at h
          simp at h
        | ok hi =>
          rw [getLogs_ok_eq env db userId uid user fromQ toQ limitQ lo hi hcast hfind hlo hhi] at h
          refine ⟨uid, user, lo, hi, ?_, ?_, ?_, ?_, ?_⟩
          · rfl
          · exact hfind
          · rfl
          · rfl
          · exact (Except.ok.inj h).symm

lemma inBounds_iff (lo hi : Option Int) (d : Int) :
    inBounds lo hi d = true ↔
      (∀ f, lo = some f → f ≤ d) ∧ (∀ t, hi = some t → d ≤ t) := by
  cases lo <;> cases hi <;> simp [inBounds]

lemma matchedLog_sound (env : Env) (db : DB) (uid : Nat) (lo hi : Option Int)
    (limitQ : Option String) (l : LogEntry)
    (h : l ∈ matchedLog env db uid lo hi limitQ) :
    ∃ e ∈ db.exercises, e.userId = uid ∧ inBounds lo hi e.date = true ∧
      l = ⟨e.description, e.duration, env.toDateString e.date⟩ := by
  unfold matchedLog at h
  obtain ⟨e, he, hl⟩ := List.mem_map.mp h
  have he2 := applyCap_subset (limitCap limitQ) _ he
  have h3 := List.mem_filter.mp he2
  have h4 := List.mem_filter.mp h3.1
  exact ⟨e, h4.1, by simpa using h4.2, h3.2, hl.symm⟩

lemma matchedLog_complete (env : Env) (db : DB) (uid : Nat) (lo hi : Option Int)
    (limitQ : Option String) (e : ExerciseRec)
    (hcap : limitCap limitQ = none)
    (he : e ∈ db.exercises) (huid : e.userId = uid)
    (hb : inBounds lo hi e.date = true) :
    (⟨e.description, e.duration, env.toDateString e.date⟩ : LogEntry) ∈
      matchedLog env db uid lo hi limitQ := by
  unfold matchedLog
  rw [hcap]
  simp only [applyCap]
  exact List.mem_map_of_mem _
    (List.mem_filter.mpr ⟨List.mem_filter.mpr ⟨he, by simpa using huid⟩, hb⟩)

lemma matchedLog_length_le (env : Env) (db : DB) (uid : Nat) (lo hi : Option Int)
    (limitQ : Option String) (n : Nat)
    (hcap : limitCap limitQ = some n) :
    (matchedLog env db uid lo hi limitQ).length ≤ n := by
  unfold matchedLog
  rw [hcap]
  simp only [applyCap, List.length_map]
  exact (List.length_take_le n _)

lemma limitCap_pos (s : String) (n : Int) (hn : parseIntJS s = some n) (hpos : 0 < n) :
    limitCap (some s) = some n.toNat := by
  simp [limitCap, hn, hpos]

lemma limitCap_ignored (s : String)
    (h : parseIntJS s = none ∨ ∃ n, parseIntJS s = some n ∧ n ≤ 0) :
    limitCap (some s) = limitCap none := by
  rcases h with h | ⟨n, hn, hle⟩
  · simp [limitCap, h]
  · simp [limitCap, hn, not_lt.mpr hle]

end ExerciseTracker

namespace ExerciseTracker

/-! ### Claim theorems -/

/-- C1: a successful POST /api/users/:_id/exercises (existing user, non-empty
description, coercible duration, valid-or-absent date) responds with the
user's username, the exercise's description, the parsed integer duration,
the formatted date, and an id equal to the user's id — which differs from
the new exercise's id — and persists the exercise with the supplied date,
or the server's current date when the date field is omitted. -/
theorem addExercise_success_spec (env : Env) (db : DB) (userId : String)
    (desc dur : String) (dt? : Option String) (durN exDate : Int)
    (uid : Nat) (user : UserRec)
    (hwf : db.wf)
    (hd : desc ≠ "") (hdur : dur ≠ "")
    (hn : parseIntJS dur = some durN)
    (hdt : resolveDate env dt? = .ok exDate)
    (hcast : castId userId = some uid)
    (hfind : db.users.find? (fun u => u.uid == uid) = some user) :
    addExercise env db userId (some desc) (some dur) dt? =
      (.ok ⟨user.username, desc, durN, env.toDateString exDate, user.uid⟩,
       ⟨db.users, db.exercises ++ [⟨db.nextId, user.uid, desc, durN, exDate⟩],
        db.nextId + 1⟩) ∧
    user.uid ≠ db.nextId ∧
    (dt? = none → exDate = env.now) ∧
    (∀ ds, dt? = some ds → ds ≠ "" → env.parseDate ds = some exDate) := by
  refine ⟨addExercise_ok_eq env db userId desc dur dt? durN exDate uid user
            hd hdur hn hdt hcast hfind, ?_, ?_, ?_⟩
  · have hmem := List.mem_of_find?_eq_some hfind
    exact Nat.ne_of_lt (hwf.1 user hmem)
  · intro hnone
    subst hnone
    have hrd : resolveDate env none = Except.ok env.now := rfl
    rw [hrd] at hdt
    exact (Except.ok.inj hdt).symm
  · intro ds hds hne
    subst hds
    simp only [resolveDate] at hdt
    rw [if_neg hne] at hdt
    cases hpd : env.parseDate ds with
    | none => rw [hpd] at hdt; simp at hdt
    | some d =>
      rw [hpd] at hdt
      simp only [Except.ok.injEq] at hdt
      exact congrArg some hdt

/-- C1 witness: on the concrete store, adding exercise "jog"/45 with no date
for user 1 yields the specified response and the user id differs from the
fresh exercise id. -/
theorem addExercise_success_spec_witness :
    addExercise envX db3 "1" (some "jog") (some "45") none = (.ok respJog, dbAfter) ∧
    (1 : Nat) ≠ db3.nextId := by
  have h := addExercise_success_spec envX db3 "1" "jog" "45" none 45 100 1 ⟨1, "alice"⟩
      (by decide) (by decide) (by decide) (by decide) (by decide) (by decide) (by decide)
  exact ⟨h.1, h.2.1⟩

/-- C2: every successful GET /api/users/:_id/logs response has count equal to
the length of the returned (filtered and limited) log, each log entry is the
description, duration and date-string of a stored exercise, and a positive
integer limit caps the log length. -/
theorem getLogs_count_spec (env : Env) (db : DB) (userId : String)
    (fromQ toQ limitQ : Option String) (r : LogResp)
    (h : getLogs env db userId fromQ toQ limitQ = .ok r) :
    r.count = r.log.length ∧
    (∀ l ∈ r.log, ∃ e ∈ db.exercises,
      l = ⟨e.description, e.duration, env.toDateString e.date⟩) ∧
    (∀ s n, limitQ = some s → parseIntJS s = some n → 0 < n →
      r.log.length ≤ n.toNat) := by
  obtain ⟨uid, user, lo, hi, hcast, hfind, hlo, hhi, hr⟩ :=
    getLogs_ok_inv env db userId fromQ toQ limitQ r h
  subst hr
  refine ⟨rfl, ?_, ?_⟩
  · intro l hl
    obtain ⟨e, he, _, _, hle⟩ := matchedLog_sound env db uid lo hi limitQ l hl
    exact ⟨e, he, hle⟩
  · intro s n hs hn hpos
    subst hs
    exact matchedLog_length_le env db uid lo hi (some s) n.toNat (limitCap_pos s n hn hpos)

/-- C2 witness: the concrete request with from=0, to=10, limit=1 returns a
log of one entry, with count 1 and the cap respected. -/
theorem getLogs_count_spec_witness :
    logsR.count = logsR.log.length ∧ logsR.log.length ≤ (1 : Int).toNat := by
  have h := getLogs_count_spec envX db3 "1" (some "0") (some "10") (some "1") logsR (by decide)
  exact ⟨h.1, h.2.2 "1" 1 rfl (by decide) (by decide)⟩

/-- C6: when the insert of a new user hits the unique-index duplicate-key
error (driver code 11000), POST /api/users answers 400 "Username already
taken" rather than a generic 500. -/
theorem createUser_dup_key_400 (dbF dbS : DB) (uname : String)
    (h1 : uname ≠ "")
    (h2 : dbF.users.find? (fun r => r.username == uname) = none)
    (h3 : saveUser dbS uname = .err 11000) :
    createUserWith dbF dbS (some uname) =
      (.error ⟨400, "Username already taken"⟩, dbS) := by
  simp [createUserWith, h1, h2, h3]

/-- C6 witness: findOne sees an empty store, save sees "alice" already
present: the handler answers 400, not 500. -/
theorem createUser_dup_key_400_witness :
    createUserWith dbEmpty db3 (some "alice") =
      (.error ⟨400, "Username already taken"⟩, db3) :=
  createUser_dup_key_400 dbEmpty db3 "alice" (by decide) rfl rfl

/-- C7: creating a user whose username is already stored returns the
pre-existing record (same id and username) and leaves the store unchanged
(no second insert). -/
theorem createUser_idempotent (db : DB) (uname : String) (u : UserRec)
    (hnodup : (db.users.map UserRec.username).Nodup)
    (hmem : u ∈ db.users) (hname : u.username = uname) (h1 : uname ≠ "") :
    createUser db (some uname) = (.ok ⟨u.username, u.uid⟩, db) := by
  have hsome : (db.users.find? (fun r => r.username == uname)).isSome := by
    rw [List.find?_isSome]
    exact ⟨u, hmem, by simp [hname]⟩
  obtain ⟨x, hx⟩ := Option.isSome_iff_exists.mp hsome
  have hxmem := List.mem_of_find?_eq_some hx
  have hxname : x.username = uname := by simpa using List.find?_some hx
  have hxu : x = u :=
    List.inj_on_of_nodup_map hnodup hxmem hmem (by rw [hxname, hname])
  subst hxu
  simp [createUser, createUserWith, h1, hx]

/-- C7 witness: re-creating "alice" on the concrete store returns her
original id 1 and does not change the store. -/
theorem createUser_idempotent_witness :
    createUser db3 (some "alice") = (.ok ⟨"alice", 1⟩, db3) :=
  createUser_idempotent db3 "alice" ⟨1, "alice"⟩ (by decide) (by decide) rfl (by decide)

/-- C9: a date field supplied as the empty string is treated exactly like an
omitted date — the handler behaves identically, and the resolved date is the
server's current date (no ValidationError). -/
theorem addExercise_empty_date (env : Env) (db : DB) (userId : String)
    (d? dur? : Option String) :
    addExercise env db userId d? dur? (some "") =
      addExercise env db userId d? dur? none ∧
    resolveDate env (some "") = .ok env.now := by
  exact ⟨rfl, rfl⟩

/-- C10: a limit query parameter that does not parse to a number, or parses
to zero or a negative number, is silently ignored: the response equals that
of the same request without a limit. -/
theorem getLogs_limit_ignored (env : Env) (db : DB) (userId : String)
    (fromQ toQ : Option String) (ls : String)
    (h : parseIntJS ls = none ∨ ∃ n, parseIntJS ls = some n ∧ n ≤ 0) :
    getLogs env db userId fromQ toQ (some ls) =
      getLogs env db userId fromQ toQ none := by
  have hcap : limitCap (some ls) = limitCap none := limitCap_ignored ls h
  unfold getLogs matchedLog
  rw [hcap]

/-- C10 witness: limit "0" leaves the concrete log uncapped, identical to
the limit-free request. -/
theorem getLogs_limit_ignored_witness :
    getLogs envX db3 "1" none none (some "0") =
      getLogs envX db3 "1" none none none :=
  getLogs_limit_ignored envX db3 "1" none none "0" (Or.inr ⟨0, by decide, by decide⟩)

end ExerciseTracker

namespace ExerciseTracker

/-- C8: every exercise created successfully through POST
/api/users/:_id/exercises is retrievable through an unfiltered GET
/api/users/:_id/logs on the resulting store: the logs request succeeds and
its log contains an entry whose description, duration and date string equal
those of the creation response. -/
theorem addExercise_roundtrip (env : Env) (db : DB) (userId : String)
    (d? dur? dt? : Option String) (resp : ExerciseResp) (db2 : DB)
    (h : addExercise env db userId d? dur? dt? = (.ok resp, db2)) :
    isOkResp (getLogs env db2 userId none none none) = true ∧
    (⟨resp.description, resp.duration, resp.date⟩ : LogEntry) ∈
      logsOf (getLogs env db2 userId none none none) := by
  obtain ⟨desc, dur, durN, exDate, uid, user, hd?, hdur?, hdne, hdurne, hn, hdt,
          hcast, hfind, hresp, hdb2⟩ :=
    addExercise_ok_inv env db userId d? dur? dt? resp db2 h
  subst hresp
  subst hdb2
  have huser : user.uid = uid := by simpa using List.find?_some hfind
  have hfind2 : (DB.mk db.users
      (db.exercises ++ [⟨db.nextId, user.uid, desc, durN, exDate⟩])
      (db.nextId + 1)).users.find? (fun u => u.uid == uid) = some user := hfind
  have hlog := getLogs_ok_eq env
      (DB.mk db.users (db.exercises ++ [⟨db.nextId, user.uid, desc, durN, exDate⟩])
        (db.nextId + 1))
      userId uid user none none none none none hcast hfind2 rfl rfl
  rw [hlog]
  refine ⟨rfl, ?_⟩
  simp only [logsOf]
  exact matchedLog_complete env
    (DB.mk db.users (db.exercises ++ [⟨db.nextId, user.uid, desc, durN, exDate⟩])
      (db.nextId + 1))
    uid none none none ⟨db.nextId, user.uid, desc, durN, exDate⟩ rfl
    (by simp) huser rfl

/-- C8 witness: the "jog" exercise created on the concrete store appears in
the subsequent unfiltered log with matching fields. -/
theorem addExercise_roundtrip_witness :
    isOkResp (getLogs envX dbAfter "1" none none none) = true ∧
    (⟨"jog", 45, "100"⟩ : LogEntry) ∈ logsOf (getLogs envX dbAfter "1" none none none) :=
  addExercise_roundtrip envX db3 "1" (some "jog") (some "45") none respJog dbAfter
    (by decide)

end ExerciseTracker

namespace ExerciseTracker

lemma truthyOpt_some (o : Option String) (h : truthyOpt o = true) :
    ∃ s, o = some s ∧ s ≠ "" := by
  cases o with
  | none => simp [truthyOpt] at h
  | some s => exact ⟨s, rfl, by simpa [truthyOpt] using h⟩

lemma resolveDate_error_inv (env : Env) (dt? : Option String) (e : HttpError)
    (h : resolveDate env dt? = .error e) : e = ⟨400, "Invalid date format"⟩ := by
  cases dt? with
  | none => simp [resolveDate] at h
  | some ds =>
    simp only [resolveDate] at h
    by_cases hds : ds = ""
    · rw [if_pos hds] at h
      simp at h
    · rw [if_neg hds] at h
      cases hpd : env.parseDate ds with
      | none =>
        rw [hpd] at h
        exact (Except.error.inj h).symm
      | some d =>
        rw [hpd] at h
        simp at h

lemma requireBody_error_inv (d? dur? : Option String) (e : HttpError)
    (h : requireBody d? dur? = .error e) :
    e = ⟨400, "Description and duration are required"⟩ := by
  cases d? with
  | none => exact (Except.error.inj h).symm
  | some d =>
    cases dur? with
    | none => exact (Except.error.inj h).symm
    | some du =>
      replace h :
          (if d = "" ∨ du = ""
            then (Except.error ⟨400, "Description and duration are required"⟩ :
                   Except HttpError (String × String))
            else Except.ok (d, du)) = Except.error e := h
      by_cases hc : d = "" ∨ du = ""
      · rw [if_pos hc] at h
        exact (Except.error.inj h).symm
      · rw [if_neg hc] at h
        exact absurd h (by simp)

/-- C3 counterexample: a request with parseable from=0 and to=10 but also
limit=1 returns a log that omits the user's in-range exercise "swim"
(dated 6), so the log does not contain exactly the in-range exercises. -/
theorem getLogs_range_exact_cex :
    (getLogs envX db3 "1" (some "0") (some "10") (some "1")).toOption.map LogResp.log =
      some [(⟨"run", 3, "5"⟩ : LogEntry)] ∧
    ¬ (∀ e ∈ db3.exercises, e.userId = 1 → (0 : Int) ≤ e.date → e.date ≤ 10 →
        (⟨e.description, e.duration, envX.toDateString e.date⟩ : LogEntry) ∈
          [(⟨"run", 3, "5"⟩ : LogEntry)]) := by
  constructor
  · decide
  · decide

/-- C3 (amended): when from and to parse, the returned log is exactly the
user's exercises with date in the inclusive range [from, to] (each bound
applied only when supplied) — truncated to the first limit entries when a
positive integer limit is supplied; without an applied limit every in-range
exercise, including one dated exactly on the to endpoint, appears. -/
theorem getLogs_range_filter_spec (env : Env) (db : DB) (userId : String)
    (fromQ toQ limitQ : Option String) (lo hi : Option Int) (r : LogResp)
    (h : getLogs env db userId fromQ toQ limitQ = .ok r)
    (hlo : parseBound env fromQ "Invalid \x27from\x27 date format" = .ok lo)
    (hhi : parseBound env toQ "Invalid \x27to\x27 date format" = .ok hi) :
    (∀ l ∈ r.log, ∃ e ∈ db.exercises, e.userId = r.id ∧
        (∀ f, lo = some f → f ≤ e.date) ∧ (∀ t, hi = some t → e.date ≤ t) ∧
        l = ⟨e.description, e.duration, env.toDateString e.date⟩) ∧
    (limitCap limitQ = none → ∀ e ∈ db.exercises, e.userId = r.id →
        (∀ f, lo = some f → f ≤ e.date) → (∀ t, hi = some t → e.date ≤ t) →
        (⟨e.description, e.duration, env.toDateString e.date⟩ : LogEntry) ∈ r.log) ∧
    (∀ n, limitCap limitQ = some n → r.log.length ≤ n) := by
  obtain ⟨uid, user, lo2, hi2, hcast, hfind, hlo2, hhi2, hr⟩ :=
    getLogs_ok_inv env db userId fromQ toQ limitQ r h
  have hlo3 : lo2 = lo := Except.ok.inj (hlo2.symm.trans hlo)
  have hhi3 : hi2 = hi := Except.ok.inj (hhi2.symm.trans hhi)
  subst hlo3
  subst hhi3
  have huser : user.uid = uid := by simpa using List.find?_some hfind
  subst huser
  subst hr
  refine ⟨?_, ?_, ?_⟩
  · intro l hl
    obtain ⟨e, he, heu, hb, hle⟩ := matchedLog_sound env db user.uid lo2 hi2 limitQ l hl
    obtain ⟨hf, ht⟩ := (inBounds_iff lo2 hi2 e.date).mp hb
    exact ⟨e, he, heu, hf, ht, hle⟩
  · intro hcap e he heu hf ht
    exact matchedLog_complete env db user.uid lo2 hi2 limitQ e hcap he heu
      ((inBounds_iff lo2 hi2 e.date).mpr ⟨hf, ht⟩)
  · intro n hcap
    exact matchedLog_length_le env db user.uid lo2 hi2 limitQ n hcap

/-- C3 witness: without a limit, the exercise dated 6 — inside [0, 10] and
in particular not past the to bound — appears in the returned log. -/
theorem getLogs_range_filter_spec_witness :
    (⟨"swim", 4, "6"⟩ : LogEntry) ∈ logsFull.log := by
  have h := getLogs_range_filter_spec envX db3 "1" (some "0") (some "10") none
      (some 0) (some 10) logsFull (by decide) (by decide) (by decide)
  exact h.2.1 rfl ⟨3, 1, "swim", 4, 6⟩ (by decide) rfl
    (by intro f hf; cases hf; decide) (by intro t ht; cases ht; decide)

end ExerciseTracker

namespace ExerciseTracker

/-- C4: POST /api/users/:_id/exercises answers 400 for a falsy description
or duration, then for a duration parseInt cannot read, then for a truthy
but unparseable date, then for a malformed user id (the caught CastError),
in that order of precedence; every such condition yields some 400 error;
and it answers 404 "User not found" exactly when body, duration, date and
id cast all pass and no stored user carries the cast id. -/
theorem addExercise_error_taxonomy (env : Env) (db : DB) (userId : String)
    (d? dur? dt? : Option String) :
    (truthyOpt d? = false ∨ truthyOpt dur? = false →
      addExercise env db userId d? dur? dt? =
        (.error ⟨400, "Description and duration are required"⟩, db)) ∧
    (∀ desc dur, d? = some desc → dur? = some dur → desc ≠ "" → dur ≠ "" →
      parseIntJS dur = none →
      addExercise env db userId d? dur? dt? =
        (.error ⟨400, "Duration must be a number"⟩, db)) ∧
    (∀ desc dur durN ds, d? = some desc → dur? = some dur → desc ≠ "" → dur ≠ "" →
      parseIntJS dur = some durN → dt? = some ds → ds ≠ "" → env.parseDate ds = none →
      addExercise env db userId d? dur? dt? =
        (.error ⟨400, "Invalid date format"⟩, db)) ∧
    (∀ desc dur durN exDate, d? = some desc → dur? = some dur → desc ≠ "" → dur ≠ "" →
      parseIntJS dur = some durN → resolveDate env dt? = .ok exDate →
      castId userId = none →
      addExercise env db userId d? dur? dt? =
        (.error ⟨400, "Invalid user ID format"⟩, db)) ∧
    ((truthyOpt d? = false ∨ truthyOpt dur? = false ∨
      (∃ dur, dur? = some dur ∧ parseIntJS dur = none) ∨
      (∃ ds, dt? = some ds ∧ ds ≠ "" ∧ env.parseDate ds = none) ∨
      castId userId = none) →
      ∃ e, (addExercise env db userId d? dur? dt?).1 = .error e ∧ e.status = 400) ∧
    ((addExercise env db userId d? dur? dt?).1 = .error ⟨404, "User not found"⟩ ↔
      ∃ desc dur durN exDate uid, d? = some desc ∧ dur? = some dur ∧
        desc ≠ "" ∧ dur ≠ "" ∧ parseIntJS dur = some durN ∧
        resolveDate env dt? = .ok exDate ∧ castId userId = some uid ∧
        ∀ u ∈ db.users, u.uid ≠ uid) := by
  refine ⟨?_, ?_, ?_, ?_, ?_, ?_⟩
  · intro h
    exact addExercise_bodyFalsy env db userId d? dur? dt? h
  · intro desc dur hd? hdur? hdne hdurne hnan
    subst hd?
    subst hdur?
    exact addExercise_durNaN env db userId desc dur dt? hdne hdurne hnan
  · intro desc dur durN ds hd? hdur? hdne hdurne hn hds hdsne hpd
    subst hd?
    subst hdur?
    subst hds
    exact addExercise_badDate env db userId desc dur ds durN hdne hdurne hn hdsne hpd
  · intro desc dur durN exDate hd? hdur? hdne hdurne hn hdt hcast
    subst hd?
    subst hdur?
    exact addExercise_badCast env db userId desc dur dt? durN exDate hdne hdurne hn hdt hcast
  · intro hcond
    cases htd : truthyOpt d? with
    | false =>
      refine ⟨⟨400, "Description and duration are required"⟩, ?_, rfl⟩
      rw [addExercise_bodyFalsy env db userId d? dur? dt? (Or.inl htd)]
    | true =>
      cases htdur : truthyOpt dur? with
      | false =>
        refine ⟨⟨400, "Description and duration are required"⟩, ?_, rfl⟩
        rw [addExercise_bodyFalsy env db userId d? dur? dt? (Or.inr htdur)]
      | true =>
        obtain ⟨desc, hd?, hdne⟩ := truthyOpt_some d? htd
        obtain ⟨dur, hdur?, hdurne⟩ := truthyOpt_some dur? htdur
        subst hd?
        subst hdur?
        rcases hcond with hc | hc | ⟨dur2, hdur2, hnan⟩ | ⟨ds, hds, hdsne, hpd⟩ | hcast
        · exact absurd (htd.symm.trans hc) (by simp)
        · exact absurd (htdur.symm.trans hc) (by simp)
        · have hdd : dur2 = dur := (Option.some.inj hdur2).symm
          rw [hdd] at hnan
          refine ⟨⟨400, "Duration must be a number"⟩, ?_, rfl⟩
          rw [addExercise_durNaN env db userId desc dur dt? hdne hdurne hnan]
        · cases hn : parseIntJS dur with
          | none =>
            refine ⟨⟨400, "Duration must be a number"⟩, ?_, rfl⟩
            rw [addExercise_durNaN env db userId desc dur dt? hdne hdurne hn]
          | some durN =>
            subst hds
            refine ⟨⟨400, "Invalid date format"⟩, ?_, rfl⟩
            rw [addExercise_badDate env db userId desc dur ds durN hdne hdurne hn hdsne hpd]
        · cases hn : parseIntJS dur with
          | none =>
            refine ⟨⟨400, "Duration must be a number"⟩, ?_, rfl⟩
            rw [addExercise_durNaN env db userId desc dur dt? hdne hdurne hn]
          | some durN =>
            cases hdt : resolveDate env dt? with
            | error e0 =>
              have he0 := resolveDate_error_inv env dt? e0 hdt
              subst he0
              refine ⟨⟨400, "Invalid date format"⟩, ?_, rfl⟩
              rw [addExercise_dateErr env db userId desc dur dt? durN _ hdne hdurne hn hdt]
            | ok exDate =>
              refine ⟨⟨400, "Invalid user ID format"⟩, ?_, rfl⟩
              rw [addExercise_badCast env db userId desc dur dt? durN exDate
                    hdne hdurne hn hdt hcast]
  · constructor
    · intro h404
      cases hrb : requireBody d? dur? with
      | error e0 =>
        have hA : addExercise env db userId d? dur? dt? = (.error e0, db) := by
          unfold addExercise
          rw [hrb]
        have he0 := requireBody_error_inv d? dur? e0 hrb
        subst he0
        rw [hA] at h404
        simp at h404
      | ok p =>
        obtain ⟨desc, dur⟩ := p
        obtain ⟨hd?, hdur?, hdne, hdurne⟩ := requireBody_ok_inv d? dur? desc dur hrb
        subst hd?
        subst hdur?
        cases hn : parseIntJS dur with
        | none =>
          rw [addExercise_durNaN env db userId desc dur dt? hdne hdurne hn] at h404
          simp at h404
        | some durN =>
          cases hdt : resolveDate env dt? with
          | error e0 =>
            have he0 := resolveDate_error_inv env dt? e0 hdt
            subst he0
            rw [addExercise_dateErr env db userId desc dur dt? durN _
                  hdne hdurne hn hdt] at h404
            simp at h404
          | ok exDate =>
            cases hcast : castId userId with
            | none =>
              rw [addExercise_badCast env db userId desc dur dt? durN exDate
                    hdne hdurne hn hdt hcast] at h404
              simp at h404
            | some uid =>
              cases hfind : db.users.find? (fun u => u.uid == uid) with
              | some user =>
                rw [addExercise_ok_eq env db userId desc dur dt? durN exDate uid user
                      hdne hdurne hn hdt hcast hfind] at h404
                simp at h404
              | none =>
                refine ⟨desc, dur, durN, exDate, uid, rfl, rfl, hdne, hdurne, hn,
                        rfl, rfl, ?_⟩
                intro u hu
                have := List.find?_eq_none.mp hfind u hu
                simpa using this
    · intro hex
      obtain ⟨desc, dur, durN, exDate, uid, hd?, hdur?, hdne, hdurne, hn, hdt,
              hcast, hall⟩ := hex
      subst hd?
      subst hdur?
      have hfind : db.users.find? (fun u => u.uid == uid) = none :=
        List.find?_eq_none.mpr (fun u hu => by simpa using hall u hu)
      rw [addExercise_notFound env db userId desc dur dt? durN exDate uid
            hdne hdurne hn hdt hcast hfind]

/-- C4 witness: a malformed id "zz" yields 400 even though no user can match
it, and a well-formed but unknown id 9 yields exactly 404. -/
theorem addExercise_error_taxonomy_witness :
    addExercise envX db3 "zz" (some "jog") (some "45") none =
      (.error ⟨400, "Invalid user ID format"⟩, db3) ∧
    (addExercise envX db3 "9" (some "jog") (some "45") none).1 =
      .error ⟨404, "User not found"⟩ := by
  have h := addExercise_error_taxonomy envX db3 "zz" (some "jog") (some "45") none
  have h9 := addExercise_error_taxonomy envX db3 "9" (some "jog") (some "45") none
  constructor
  · exact h.2.2.2.1 "jog" "45" 45 100 rfl rfl (by decide) (by decide) (by decide)
      (by decide) (by decide)
  · exact h9.2.2.2.2.2.mpr ⟨"jog", "45", 45, 100, 9, rfl, rfl, by decide, by decide,
      by decide, by decide, by decide, by decide⟩

end ExerciseTracker

namespace ExerciseTracker

/-- C5 counterexample: the identical logs request with an unparseable from
value yields a 400 ValidationError when the user exists but a 404 when it
does not, so whether a request yields a ValidationError depends on the
state of the storage backend. -/
theorem getLogs_validation_state_cex :
    getLogs envX db3 "1" (some "zzz") none none =
      .error ⟨400, "Invalid \x27from\x27 date format"⟩ ∧
    getLogs envX dbEmpty "1" (some "zzz") none none =
      .error ⟨404, "User not found"⟩ := by
  exact ⟨by decide, by decide⟩

/-- C5 (amended): in the POST handlers, validation outcomes precede and are
independent of storage: any 400 error of POST exercises is the same against
every store, and a falsy username fails POST /api/users identically against
every store; but in GET logs the from/to validation runs after the user
lookup, so with the user absent the request answers 404 regardless of
whether the from value parses. -/
theorem validation_pre_storage_spec :
    (∀ (env : Env) (userId : String) (d? dur? dt? : Option String) (dbA dbB : DB)
       (e : HttpError),
       (addExercise env dbA userId d? dur? dt?).1 = .error e → e.status = 400 →
       (addExercise env dbB userId d? dur? dt?).1 = .error e) ∧
    (∀ (dbA dbB : DB) (username? : Option String), truthyOpt username? = false →
       (createUser dbA username?).1 = .error ⟨400, "Username is required"⟩ ∧
       (createUser dbA username?).1 = (createUser dbB username?).1) ∧
    (∀ (env : Env) (db : DB) (userId : String) (uid : Nat) (fs : String)
       (toQ limQ : Option String),
       castId userId = some uid →
       db.users.find? (fun u => u.uid == uid) = none →
       getLogs env db userId (some fs) toQ limQ = .error ⟨404, "User not found"⟩) := by
  refine ⟨?_, ?_, ?_⟩
  · exact fun env userId d? dur? dt? dbA dbB e h h4 =>
      addExercise_val_indep env userId d? dur? dt? dbA dbB e h h4
  · intro dbA dbB username? h
    cases username? with
    | none => exact ⟨rfl, rfl⟩
    | some s =>
      have hs : s = "" := by simpa [truthyOpt] using h
      subst hs
      exact ⟨rfl, rfl⟩
  · intro env db userId uid fs toQ limQ hcast hfind
    exact getLogs_notFound env db userId uid (some fs) toQ limQ hcast hfind

/-- C5 witness: a duration validation failure of POST exercises transfers
from one concrete store to another unchanged, and the missing-user logs
request answers 404 despite its unparseable from value. -/
theorem validation_pre_storage_spec_witness :
    (addExercise envX dbEmpty "1" (some "jog") (some "x") none).1 =
      .error ⟨400, "Duration must be a number"⟩ ∧
    getLogs envX dbEmpty "7" (some "zzz") none none =
      .error ⟨404, "User not found"⟩ := by
  have h := validation_pre_storage_spec
  exact ⟨h.1 envX "1" (some "jog") (some "x") none db3 dbEmpty
           ⟨400, "Duration must be a number"⟩ (by decide) rfl,
         h.2.2 envX dbEmpty "7" 7 "zzz" none none (by decide) rfl⟩

end ExerciseTracker
